import Mathlib

/-!
Shallow embedding of the `AccountableAnonFhe` Solidity contract found in
`src/frontend/web/src/App.tsx` (lines 668-913).

Modelling conventions:
* `address` and `uint256` values are modelled as `Nat`. Solidity 0.8
  checked arithmetic reverts on overflow rather than wrapping; no claim in
  this development depends on values anywhere near `2^256`, so unbounded
  `Nat` arithmetic is faithful on the reachable inputs considered here.
* Solidity mappings are total functions with the type's zero default,
  exactly as EVM storage behaves.
* `bytes32` values that arise as hashes are modelled by the inductive type
  `B32`: the default storage value is `B32.zero`, and `keccak256(abi.encode
  (cts, address(this)))` is `B32.keccakEnc cts addr`. The injectivity of the
  constructor is the standard ideal model of a collision-resistant hash, and
  `B32.zero` is never a hash output (`bytes32(0)` is not a keccak image).
* Opaque ciphertext handles (`euint32` / `ebool`, read back with
  `FHE.toBytes32`) are modelled as `Nat`.
* `FHE.checkSignatures` is an external verification; it is modelled as a
  boolean function parameter `checkSig` supplied by the environment.
* A revert is an `Except.error`; by EVM semantics a reverted call leaves
  storage unchanged, which the step function `stepOp` makes explicit.
* `msg.sender` and `block.timestamp` are explicit `sender` / `now`
  arguments; the oracle-chosen `requestId` of `FHE.requestDecryption` is an
  explicit argument of `requestBatchDecryption`.
-/

/-- The contract's declared custom errors, plus `DecodeRevert` for the plain
(un-named) revert an `abi.decode` failure raises inside the callback's
success block (such a revert is not caught by `try/catch`, which only
catches failure of the external call itself). -/
inductive Err where
  | NotOwner
  | NotProvider
  | Paused
  | CooldownActive
  | BatchClosedOrInvalid
  | InvalidCooldown
  | ReplayDetected
  | StateMismatch
  | InvalidProof
  | DecodeRevert
deriving DecidableEq, Repr

/-- `bytes32` values in hash position: the zero default of storage, or an
idealized `keccak256(abi.encode(cts, addr))` image (injective constructor =
collision-resistance ideal model). -/
inductive B32 where
  | zero : B32
  | keccakEnc : List Nat → Nat → B32
deriving DecidableEq, Repr

/-- `struct DecryptionContext { uint256 batchId; bytes32 stateHash; bool processed; }` -/
structure DecryptionContext where
  batchId : Nat
  stateHash : B32
  processed : Bool
deriving DecidableEq, Repr

/-- Point update of a one-key mapping. -/
def upd {α : Type} (f : Nat → α) (k : Nat) (v : α) : Nat → α :=
  fun k' => if k' = k then v else f k'

/-- Point update of a two-key mapping. -/
def upd2 {α : Type} (f : Nat → Nat → α) (k1 k2 : Nat) (v : α) : Nat → Nat → α :=
  fun a b => if a = k1 ∧ b = k2 then v else f a b

/-- The contract storage of `AccountableAnonFhe`, field for field, plus the
immutable `selfAddr` standing for `address(this)`. -/
structure ContractState where
  selfAddr : Nat
  owner : Nat
  isProvider : Nat → Bool
  paused : Bool
  cooldownSeconds : Nat
  lastSubmissionTime : Nat → Nat
  lastDecryptionRequestTime : Nat → Nat
  currentBatchId : Nat
  isBatchOpen : Nat → Bool
  submissionsInBatch : Nat → Nat
  encryptedReputationUpdates : Nat → Nat → Nat
  encryptedIsMalicious : Nat → Nat → Nat
  submissionsCount : Nat → Nat
  decryptionContexts : Nat → DecryptionContext

/-- The constructor: `owner = msg.sender; isProvider[owner] = true;
cooldownSeconds = 60;` over zero-initialized storage. -/
def initState (deployer selfAddr : Nat) : ContractState where
  selfAddr := selfAddr
  owner := deployer
  isProvider := fun a => a = deployer
  paused := false
  cooldownSeconds := 60
  lastSubmissionTime := fun _ => 0
  lastDecryptionRequestTime := fun _ => 0
  currentBatchId := 0
  isBatchOpen := fun _ => false
  submissionsInBatch := fun _ => 0
  encryptedReputationUpdates := fun _ _ => 0
  encryptedIsMalicious := fun _ _ => 0
  submissionsCount := fun _ => 0
  decryptionContexts := fun _ => ⟨0, B32.zero, false⟩

/-- `transferOwnership(address newOwner) external onlyOwner { owner = newOwner; }`
(no guard whatsoever on `newOwner`). -/
def transferOwnership (s : ContractState) (sender newOwner : Nat) :
    Except Err ContractState :=
  if sender ≠ s.owner then .error .NotOwner
  else .ok { s with owner := newOwner }

/-- `addProvider`: owner-only; silent no-op when already a provider. -/
def addProvider (s : ContractState) (sender provider : Nat) :
    Except Err ContractState :=
  if sender ≠ s.owner then .error .NotOwner
  else if s.isProvider provider then .ok s
  else .ok { s with isProvider := upd s.isProvider provider true }

/-- `removeProvider`: owner-only; silent no-op when not a provider. No guard
stops the owner from removing their own provider flag. -/
def removeProvider (s : ContractState) (sender provider : Nat) :
    Except Err ContractState :=
  if sender ≠ s.owner then .error .NotOwner
  else if s.isProvider provider then
    .ok { s with isProvider := upd s.isProvider provider false }
  else .ok s

/-- `pause() external onlyOwner whenNotPaused { paused = true; }`: when
already paused the `whenNotPaused` modifier reverts with `Paused()`. -/
def pause (s : ContractState) (sender : Nat) : Except Err ContractState :=
  if sender ≠ s.owner then .error .NotOwner
  else if s.paused then .error .Paused
  else .ok { s with paused := true }

/-- `unpause()`: `if (!paused) revert Paused(); // Already unpaused` — the
same `Paused()` error as the pause-direction failure. -/
def unpause (s : ContractState) (sender : Nat) : Except Err ContractState :=
  if sender ≠ s.owner then .error .NotOwner
  else if ¬ s.paused then .error .Paused
  else .ok { s with paused := false }

/-- `setCooldownSeconds`: owner-only, rejects zero with `InvalidCooldown`. -/
def setCooldownSeconds (s : ContractState) (sender newCooldownSeconds : Nat) :
    Except Err ContractState :=
  if sender ≠ s.owner then .error .NotOwner
  else if newCooldownSeconds = 0 then .error .InvalidCooldown
  else .ok { s with cooldownSeconds := newCooldownSeconds }

/-- `openBatch`: `currentBatchId++; isBatchOpen[currentBatchId] = true;
submissionsInBatch[currentBatchId] = 0;` — prior batches are untouched. -/
def openBatch (s : ContractState) (sender : Nat) : Except Err ContractState :=
  if sender ≠ s.owner then .error .NotOwner
  else if s.paused then .error .Paused
  else
    .ok { s with
      currentBatchId := s.currentBatchId + 1
      isBatchOpen := upd s.isBatchOpen (s.currentBatchId + 1) true
      submissionsInBatch := upd s.submissionsInBatch (s.currentBatchId + 1) 0 }

/-- `closeBatch`: closes the current batch only; `BatchClosedOrInvalid` if it
is not open. -/
def closeBatch (s : ContractState) (sender : Nat) : Except Err ContractState :=
  if sender ≠ s.owner then .error .NotOwner
  else if s.paused then .error .Paused
  else if ¬ s.isBatchOpen s.currentBatchId then .error .BatchClosedOrInvalid
  else .ok { s with isBatchOpen := upd s.isBatchOpen s.currentBatchId false }

/-- `_isValidBatch`: `_batchId > 0 && _batchId <= currentBatchId &&
isBatchOpen[_batchId]` — any open batch in range, not only the newest. -/
def isValidBatch (s : ContractState) (_batchId : Nat) : Bool :=
  decide (0 < _batchId) && decide (_batchId ≤ s.currentBatchId) && s.isBatchOpen _batchId

/-- `submitReputationUpdate` with its modifiers in source order:
`onlyProvider`, `whenNotPaused`, `respectCooldown` (the latter reads
`lastSubmissionTime[msg.sender]`). `_initIfNeeded` only reassigns a local
copy of its argument and is a storage no-op, so it is omitted. On success
the two ciphertext handles are stored at the next sequential index, both
counters increment, and `lastSubmissionTime[msg.sender] = block.timestamp`
is written last, after every guard. -/
def submitReputationUpdate (s : ContractState)
    (sender now _batchId encryptedReputationDelta encryptedMaliciousFlag : Nat) :
    Except Err ContractState :=
  if ¬ s.isProvider sender then .error .NotProvider
  else if s.paused then .error .Paused
  else if now < s.lastSubmissionTime sender + s.cooldownSeconds then .error .CooldownActive
  else if ¬ isValidBatch s _batchId then .error .BatchClosedOrInvalid
  else
    let submissionIndex := s.submissionsInBatch _batchId
    .ok { s with
      encryptedReputationUpdates :=
        upd2 s.encryptedReputationUpdates _batchId submissionIndex encryptedReputationDelta
      encryptedIsMalicious :=
        upd2 s.encryptedIsMalicious _batchId submissionIndex encryptedMaliciousFlag
      submissionsInBatch := upd s.submissionsInBatch _batchId (s.submissionsInBatch _batchId + 1)
      submissionsCount := upd s.submissionsCount _batchId (s.submissionsCount _batchId + 1)
      lastSubmissionTime := upd s.lastSubmissionTime sender now }

/-- The `cts` array built identically in `requestBatchDecryption` and
`myCallback`: `cts[i] = toBytes32(encryptedReputationUpdates[b][i])` for
`i < n` and `cts[i + n] = toBytes32(encryptedIsMalicious[b][i])`. -/
def buildCts (s : ContractState) (_batchId numSubmissions : Nat) : List Nat :=
  ((List.range numSubmissions).map fun i => s.encryptedReputationUpdates _batchId i)
    ++ ((List.range numSubmissions).map fun i => s.encryptedIsMalicious _batchId i)

/-- `requestBatchDecryption(uint256 _batchId)` with modifiers `onlyOwner`,
`whenNotPaused`, `respectCooldown` — note the source's `respectCooldown`
reads `lastSubmissionTime[msg.sender]`, not `lastDecryptionRequestTime`.
Requires at least one submission, freezes `stateHash` over the current
`cts`, stores the context under the oracle-chosen `requestId`, and records
`lastDecryptionRequestTime[msg.sender] = block.timestamp`. -/
def requestBatchDecryption (s : ContractState)
    (sender now _batchId requestId : Nat) : Except Err ContractState :=
  if sender ≠ s.owner then .error .NotOwner
  else if s.paused then .error .Paused
  else if now < s.lastSubmissionTime sender + s.cooldownSeconds then .error .CooldownActive
  else if s.submissionsCount _batchId = 0 then .error .BatchClosedOrInvalid
  else
    let numSubmissions := s.submissionsCount _batchId
    let cts := buildCts s _batchId numSubmissions
    let stateHash := B32.keccakEnc cts s.selfAddr
    .ok { s with
      decryptionContexts :=
        upd s.decryptionContexts requestId ⟨_batchId, stateHash, false⟩
      lastDecryptionRequestTime := upd s.lastDecryptionRequestTime sender now }

/-- Big-endian value of a byte list, as the ABI word read. -/
def beWord (bs : List Nat) : Nat := bs.foldl (fun acc b => acc * 256 + b) 0

/-- `abi.decode(data, (uint32))`: needs a full 32-byte head word, whose value
must fit in `uint32` (the ABI decoder validates value-type ranges and
reverts otherwise); trailing bytes are ignored. -/
def abiDecodeUint32 (data : List Nat) : Option Nat :=
  if data.length < 32 then none
  else
    let w := beWord (data.take 32)
    if w < 2 ^ 32 then some w else none

/-- `abi.decode(data, (bool))`: a full 32-byte head word that must be 0 or 1. -/
def abiDecodeBool (data : List Nat) : Option Bool :=
  if data.length < 32 then none
  else
    let w := beWord (data.take 32)
    if w = 0 then some false else if w = 1 then some true else none

/-- The callback's decode loop, verbatim from the source: per iteration
`reputationUpdates[i] = abi.decode(cleartexts, (uint32))` — decoded from the
START of the buffer, the running `offset` is not applied to the delta
decode — then `offset += 4`, then `isMaliciousFlags[i] =
abi.decode(cleartexts[offset:], (bool))` (the slice is modelled as
`List.drop`), then `offset += 1`. The `Nat` argument counts remaining
iterations; `offset` is the running offset. -/
def decodeSubmissions (cleartexts : List Nat) :
    Nat → Nat → Option (List Nat × List Bool)
  | 0, _ => some ([], [])
  | n + 1, offset =>
    match abiDecodeUint32 cleartexts with
    | none => none
    | some rep =>
      match abiDecodeBool (cleartexts.drop (offset + 4)) with
      | none => none
      | some flag =>
        match decodeSubmissions cleartexts n (offset + 5) with
        | none => none
        | some (reps, flags) => some (rep :: reps, flag :: flags)

/-- `myCallback(uint256 requestId, bytes cleartexts, bytes proof)`:
1. revert `ReplayDetected` if the stored context is `processed` (the ONLY
   replay gate — a missing context has the zero default, `processed=false`);
2. rebuild `cts` for the stored `batchId` against current storage, hash,
   and revert `StateMismatch` on digest disagreement;
3. `try FHE.checkSignatures` — failure of the external call is caught and
   re-raised as `InvalidProof`;
4. run the decode loop (a decode revert inside the success block is NOT
   caught: `DecodeRevert`);
5. mark the context processed and emit the decoded arrays (returned here as
   the payload of the `DecryptionCompleted` event). -/
def myCallback (checkSig : Nat → List Nat → List Nat → Bool)
    (s : ContractState) (requestId : Nat) (cleartexts proof : List Nat) :
    Except Err (ContractState × List Nat × List Bool) :=
  if (s.decryptionContexts requestId).processed then .error .ReplayDetected
  else
    let _batchId := (s.decryptionContexts requestId).batchId
    let numSubmissions := s.submissionsCount _batchId
    let currentStateHash := B32.keccakEnc (buildCts s _batchId numSubmissions) s.selfAddr
    if currentStateHash ≠ (s.decryptionContexts requestId).stateHash then
      .error .StateMismatch
    else if ¬ checkSig requestId cleartexts proof then .error .InvalidProof
    else
      match decodeSubmissions cleartexts numSubmissions 0 with
      | none => .error .DecodeRevert
      | some (reps, flags) =>
        .ok ({ s with
                decryptionContexts :=
                  upd s.decryptionContexts requestId
                    { s.decryptionContexts requestId with processed := true } },
             reps, flags)

/-- The state the callback's success branch commits: the context under `rid`
marked `processed := true`, everything else untouched. -/
def processedState (s : ContractState) (rid : Nat) : ContractState :=
  { s with
    decryptionContexts :=
      upd s.decryptionContexts rid ({ s.decryptionContexts rid with processed := true }) }

/-- One externally invocable operation of the contract, with its
environment-chosen parameters (`sender`, `block.timestamp`, oracle request
id, oracle signature checker) packaged in. -/
inductive Op where
  | transferOwnership (sender newOwner : Nat)
  | addProvider (sender provider : Nat)
  | removeProvider (sender provider : Nat)
  | pause (sender : Nat)
  | unpause (sender : Nat)
  | setCooldownSeconds (sender newCooldownSeconds : Nat)
  | openBatch (sender : Nat)
  | closeBatch (sender : Nat)
  | submitReputationUpdate (sender now _batchId delta flag : Nat)
  | requestBatchDecryption (sender now _batchId requestId : Nat)
  | myCallback (checkSig : Nat → List Nat → List Nat → Bool)
      (requestId : Nat) (cleartexts proofBytes : List Nat)

/-- Dispatch an operation to the contract function it names. -/
def runOp (o : Op) (s : ContractState) : Except Err ContractState :=
  match o with
  | .transferOwnership sender newOwner => transferOwnership s sender newOwner
  | .addProvider sender provider => addProvider s sender provider
  | .removeProvider sender provider => removeProvider s sender provider
  | .pause sender => pause s sender
  | .unpause sender => unpause s sender
  | .setCooldownSeconds sender n => setCooldownSeconds s sender n
  | .openBatch sender => openBatch s sender
  | .closeBatch sender => closeBatch s sender
  | .submitReputationUpdate sender now b d f =>
      submitReputationUpdate s sender now b d f
  | .requestBatchDecryption sender now b rid =>
      requestBatchDecryption s sender now b rid
  | .myCallback cs rid c p => (myCallback cs s rid c p).map Prod.fst

/-- EVM revert semantics: a failed call leaves storage exactly as it was. -/
def stepOp (o : Op) (s : ContractState) : ContractState :=
  match runOp o s with
  | .ok s' => s'
  | .error _ => s

/-- Serialized execution of a list of operations (failures are no-ops). -/
def execTrace : List Op → ContractState → ContractState
  | [], s => s
  | o :: rest, s => execTrace rest (stepOp o s)

/-- States reachable from deployment through the contract's entry points. -/
inductive Reachable : ContractState → Prop where
  | init (deployer selfAddr : Nat) : Reachable (initState deployer selfAddr)
  | step (o : Op) {s : ContractState} : Reachable s → Reachable (stepOp o s)

/-- Does the operation store a fresh decryption context under `r`
(overwriting any stored one)? Only `requestBatchDecryption` does. -/
def opStoresContextAt (o : Op) (r : Nat) : Bool :=
  match o with
  | .requestBatchDecryption _ _ _ rid => rid == r
  | _ => false

/-- Does the operation write the decryption context slot `r` at all
(a fresh request under `r`, or the matching callback)? -/
def opTouchesRequest (o : Op) (r : Nat) : Bool :=
  match o with
  | .requestBatchDecryption _ _ _ rid => rid == r
  | .myCallback _ rid _ _ => rid == r
  | _ => false

/-- A signature checker that accepts everything (a maximally permissive
oracle environment; failure cases of interest are reached before or after
the proof check). -/
def acceptAll : Nat → List Nat → List Nat → Bool := fun _ _ _ => true

/-- Extract the ok-state of a call, defaulting to a fallback on revert. -/
def okState (r : Except Err ContractState) (dflt : ContractState) : ContractState :=
  match r with
  | .ok s => s
  | .error _ => dflt

/-! Concrete scenario: deployer/owner `1`, contract address `100`.
Batch 1 is opened, the owner (a provider from the constructor) submits the
handle pair `(55, 1)` at `t = 100`, and at `t = 200` a decryption of batch 1
is requested under oracle request id `7`. -/

/-- Freshly deployed state: owner `1`, `address(this) = 100`. -/
def sA0 : ContractState := initState 1 100

/-- After `openBatch()` by the owner: batch 1 is open. -/
def sA1 : ContractState := okState (openBatch sA0 1) sA0

/-- After the owner submits handle pair `(55, 1)` to batch 1 at `t = 100`. -/
def sA2 : ContractState := okState (submitReputationUpdate sA1 1 100 1 55 1) sA1

/-- After `requestBatchDecryption(1)` by the owner at `t = 200`, request id 7. -/
def sA3 : ContractState := okState (requestBatchDecryption sA2 1 200 1 7) sA2

/-- A cleartext buffer the source's decode loop accepts for one submission:
36 zero bytes (head word 0 → delta 0; bytes 4..35 word 0 → flag false). -/
def cA : List Nat := List.replicate 36 0

/-- The matching callback on the untampered state, accepting oracle. -/
def cbA : Except Err (ContractState × List Nat × List Bool) :=
  myCallback acceptAll sA3 7 cA []

/-- State after the callback succeeded (request 7 marked processed). -/
def sA4 : ContractState := okState (cbA.map Prod.fst) sA3

/-- The state a successful `requestBatchDecryption` commits: the frozen
digest of the current `cts` list stored under the oracle's request id. -/
def requestedState (s : ContractState) (sender now _batchId requestId : Nat) :
    ContractState :=
  { s with
    decryptionContexts :=
      upd s.decryptionContexts requestId
        ⟨_batchId, B32.keccakEnc (buildCts s _batchId (s.submissionsCount _batchId)) s.selfAddr,
          false⟩
    lastDecryptionRequestTime := upd s.lastDecryptionRequestTime sender now }
/-- The state a successful `submitReputationUpdate` commits: the pair stored
at the next index, both counters bumped, the caller's submission time set. -/
def submittedState (s : ContractState)
    (sender now _batchId encryptedReputationDelta encryptedMaliciousFlag : Nat) :
    ContractState :=
  { s with
    encryptedReputationUpdates :=
      upd2 s.encryptedReputationUpdates _batchId (s.submissionsInBatch _batchId)
        encryptedReputationDelta
    encryptedIsMalicious :=
      upd2 s.encryptedIsMalicious _batchId (s.submissionsInBatch _batchId)
        encryptedMaliciousFlag
    submissionsInBatch := upd s.submissionsInBatch _batchId (s.submissionsInBatch _batchId + 1)
    submissionsCount := upd s.submissionsCount _batchId (s.submissionsCount _batchId + 1)
    lastSubmissionTime := upd s.lastSubmissionTime sender now }
/-- Submitting handle pair `(66, 0)` to batch 1 at `t = 300`, after the
decryption request `sA3` froze batch 1's digest. -/
def sA3b : ContractState := okState (submitReputationUpdate sA3 1 300 1 66 0) sA3
/-- Scenario for the cooldown claims: fresh deployment, batch 1 opened, the
owner submits at `t = 1000`. -/
def sB1 : ContractState := okState (openBatch (initState 1 100) 1) (initState 1 100)
/-- After the owner's submission to batch 1 at `t = 1000`. -/
def sB2 : ContractState := okState (submitReputationUpdate sB1 1 1000 1 5 0) sB1
/-- A paused deployment: the owner pauses the fresh contract. -/
def sP : ContractState := okState (pause sA0 1) sA0
/-- The reachable state in which the owner removed their own provider flag. -/
def sR : ContractState := stepOp (Op.removeProvider 1 1) (initState 1 100)
/-- Two batches open at once: `openBatch` called twice from deployment. -/
def sT : ContractState := okState (openBatch sA1 1) sA1

/-- Frame facts about every successful operation: the per-batch submission
counter never decreases; the decryption-context slot `r` is untouched by an
operation that neither requests under `r` nor is the callback for `r`; and a
context already marked processed stays processed unless a fresh request is
stored under the same id. -/
theorem runOp_frame (o : Op) (s s' : ContractState) (h : runOp o s = .ok s') :
    (∀ b, s.submissionsCount b ≤ s'.submissionsCount b)
    ∧ (∀ r, opTouchesRequest o r = false →
        s'.decryptionContexts r = s.decryptionContexts r)
    ∧ (∀ r, opStoresContextAt o r = false →
        (s.decryptionContexts r).processed = true →
        (s'.decryptionContexts r).processed = true) := by
  cases o with
  | transferOwnership sender newOwner =>
    simp only [runOp] at h
    unfold transferOwnership at h
    split at h
    · cases h
    · cases h; exact ⟨fun _ => le_refl _, fun _ _ => rfl, fun _ _ hp => hp⟩
  | addProvider sender provider =>
    simp only [runOp] at h
    unfold addProvider at h
    split at h
    · cases h
    · split at h <;> (cases h; exact ⟨fun _ => le_refl _, fun _ _ => rfl, fun _ _ hp => hp⟩)
  | removeProvider sender provider =>
    simp only [runOp] at h
    unfold removeProvider at h
    split at h
    · cases h
    · split at h <;> (cases h; exact ⟨fun _ => le_refl _, fun _ _ => rfl, fun _ _ hp => hp⟩)
  | pause sender =>
    simp only [runOp] at h
    unfold pause at h
    split at h
    · cases h
    · split at h
      · cases h
      · cases h; exact ⟨fun _ => le_refl _, fun _ _ => rfl, fun _ _ hp => hp⟩
  | unpause sender =>
    simp only [runOp] at h
    unfold unpause at h
    split at h
    · cases h
    · split at h
      · cases h
      · cases h; exact ⟨fun _ => le_refl _, fun _ _ => rfl, fun _ _ hp => hp⟩
  | setCooldownSeconds sender n =>
    simp only [runOp] at h
    unfold setCooldownSeconds at h
    split at h
    · cases h
    · split at h
      · cases h
      · cases h; exact ⟨fun _ => le_refl _, fun _ _ => rfl, fun _ _ hp => hp⟩
  | openBatch sender =>
    simp only [runOp] at h
    unfold openBatch at h
    split at h
    · cases h
    · split at h
      · cases h
      · cases h; exact ⟨fun _ => le_refl _, fun _ _ => rfl, fun _ _ hp => hp⟩
  | closeBatch sender =>
    simp only [runOp] at h
    unfold closeBatch at h
    split at h
    · cases h
    · split at h
      · cases h
      · split at h
        · cases h
        · cases h; exact ⟨fun _ => le_refl _, fun _ _ => rfl, fun _ _ hp => hp⟩
  | submitReputationUpdate sender now b d f =>
    simp only [runOp] at h
    unfold submitReputationUpdate at h
    split at h
    · cases h
    · split at h
      · cases h
      · split at h
        · cases h
        · split at h
          · cases h
          · cases h
            refine ⟨fun b' => ?_, fun _ _ => rfl, fun _ _ hp => hp⟩
            simp only [upd]
            split
            · next heq => subst heq; exact Nat.le_succ _
            · exact le_refl _
  | requestBatchDecryption sender now b rid =>
    simp only [runOp] at h
    unfold requestBatchDecryption at h
    split at h
    · cases h
    · split at h
      · cases h
      · split at h
        · cases h
        · split at h
          · cases h
          · cases h
            refine ⟨fun _ => le_refl _, fun r hr => ?_, fun r hr hp => ?_⟩
            · have hne : r ≠ rid := by
                simp only [opTouchesRequest, beq_eq_false_iff_ne, ne_eq] at hr
                exact fun hc => hr hc.symm
              simp only [upd, if_neg hne]
            · have hne : r ≠ rid := by
                simp only [opStoresContextAt, beq_eq_false_iff_ne, ne_eq] at hr
                exact fun hc => hr hc.symm
              simpa only [upd, if_neg hne] using hp
  | myCallback cs rid c p =>
    simp only [runOp] at h
    cases hm : myCallback cs s rid c p with
    | error e => rw [hm] at h; cases h
    | ok pr =>
      rw [hm] at h
      cases h
      by_cases hp : (s.decryptionContexts rid).processed = true
      · rw [myCallback, if_pos hp] at hm; cases hm
      · by_cases hsm : B32.keccakEnc (buildCts s (s.decryptionContexts rid).batchId
            (s.submissionsCount (s.decryptionContexts rid).batchId)) s.selfAddr
            = (s.decryptionContexts rid).stateHash
        · by_cases hcs : cs rid c p = true
          · cases hd : decodeSubmissions c
                (s.submissionsCount ((s.decryptionContexts rid).batchId)) 0 with
            | none =>
              rw [myCallback, if_neg hp] at hm
              simp only [hsm, hcs, hd, ne_eq, not_true_eq_false, if_false,
                Bool.not_eq_true, ite_false, ite_true] at hm
              cases hm
            | some rf =>
              obtain ⟨reps, flags⟩ := rf
              have hval : myCallback cs s rid c p
                  = .ok (processedState s rid, reps, flags) := by
                rw [myCallback, if_neg hp]
                simp only [hsm, hcs, hd, ne_eq, not_true_eq_false, if_false,
                  Bool.not_eq_true, ite_false, ite_true]
                rfl
              rw [hval] at hm
              cases hm
              refine ⟨fun _ => le_refl _, fun r hr => ?_, fun r _ hpp => ?_⟩
              · have hne : r ≠ rid := by
                  simp only [opTouchesRequest, beq_eq_false_iff_ne, ne_eq] at hr
                  exact fun hc => hr hc.symm
                simp only [processedState, upd, if_neg hne]
              · by_cases hr2 : r = rid
                · subst hr2; simp [processedState, upd]
                · simp only [processedState, upd, if_neg hr2]; exact hpp
          · rw [myCallback, if_neg hp] at hm
            simp only [hsm, hcs, ne_eq, not_true_eq_false, if_false,
              Bool.not_eq_true, ite_false, ite_true] at hm
            cases hm
        · rw [myCallback, if_neg hp] at hm
          simp only [ne_eq, hsm, not_false_eq_true, if_true, ite_true] at hm
          cases hm

/-- The per-batch submission counter never decreases across any single
operation (reverted calls change nothing). -/
theorem stepOp_count_mono (o : Op) (s : ContractState) (b : Nat) :
    s.submissionsCount b ≤ (stepOp o s).submissionsCount b := by
  unfold stepOp
  cases h : runOp o s with
  | ok s' => exact (runOp_frame o s s' h).1 b
  | error e => exact le_refl _

/-- An operation that neither requests under `r` nor is the callback for `r`
leaves the decryption context stored under `r` untouched. -/
theorem stepOp_ctx_preserved (o : Op) (s : ContractState) (r : Nat)
    (h : opTouchesRequest o r = false) :
    (stepOp o s).decryptionContexts r = s.decryptionContexts r := by
  unfold stepOp
  cases hr : runOp o s with
  | ok s' => exact (runOp_frame o s s' hr).2.1 r h
  | error e => rfl

/-- Once a context is processed it stays processed, as long as no fresh
request is stored under the same id. -/
theorem stepOp_processed_mono (o : Op) (s : ContractState) (r : Nat)
    (h : opStoresContextAt o r = false)
    (hp : (s.decryptionContexts r).processed = true) :
    ((stepOp o s).decryptionContexts r).processed = true := by
  unfold stepOp
  cases hr : runOp o s with
  | ok s' => exact (runOp_frame o s s' hr).2.2 r h hp
  | error e => exact hp

/-- `stepOp_ctx_preserved`, lifted to a whole trace. -/
theorem execTrace_ctx_preserved (ops : List Op) (s : ContractState) (r : Nat)
    (h : ∀ o ∈ ops, opTouchesRequest o r = false) :
    (execTrace ops s).decryptionContexts r = s.decryptionContexts r := by
  induction ops generalizing s with
  | nil => rfl
  | cons o rest ih =>
    simp only [execTrace]
    rw [ih (stepOp o s) fun o' ho' => h o' (List.mem_cons_of_mem _ ho'),
      stepOp_ctx_preserved o s r (h o (List.mem_cons_self _ _))]

/-- `stepOp_count_mono`, lifted to a whole trace. -/
theorem execTrace_count_mono (ops : List Op) (s : ContractState) (b : Nat) :
    s.submissionsCount b ≤ (execTrace ops s).submissionsCount b := by
  induction ops generalizing s with
  | nil => exact le_refl _
  | cons o rest ih =>
    simp only [execTrace]
    exact le_trans (stepOp_count_mono o s b) (ih (stepOp o s))

/-- `stepOp_processed_mono`, lifted to a whole trace. -/
theorem execTrace_processed_mono (ops : List Op) (s : ContractState) (r : Nat)
    (h : ∀ o ∈ ops, opStoresContextAt o r = false)
    (hp : (s.decryptionContexts r).processed = true) :
    ((execTrace ops s).decryptionContexts r).processed = true := by
  induction ops generalizing s with
  | nil => exact hp
  | cons o rest ih =>
    simp only [execTrace]
    exact ih (stepOp o s) (fun o' ho' => h o' (List.mem_cons_of_mem _ ho'))
      (stepOp_processed_mono o s r (h o (List.mem_cons_self _ _)) hp)

/-- Traces compose over list append. -/
theorem execTrace_append (l1 l2 : List Op) (s : ContractState) :
    execTrace (l1 ++ l2) s = execTrace l2 (execTrace l1 s) := by
  induction l1 generalizing s with
  | nil => rfl
  | cons o rest ih => simp only [List.cons_append, execTrace]; exact ih (stepOp o s)

/-- A processed context makes the callback revert `ReplayDetected` at once. -/
theorem myCallback_replay (cs : Nat → List Nat → List Nat → Bool)
    (s : ContractState) (r : Nat) (c p : List Nat)
    (hp : (s.decryptionContexts r).processed = true) :
    myCallback cs s r c p = .error .ReplayDetected := by
  rw [myCallback, if_pos hp]

/-- Inversion of a successful callback: the stored context was unprocessed,
and the only state change is marking it processed. -/
theorem myCallback_ok_inv (cs : Nat → List Nat → List Nat → Bool)
    (s : ContractState) (rid : Nat) (c p : List Nat)
    (pr : ContractState × List Nat × List Bool)
    (h : myCallback cs s rid c p = .ok pr) :
    (s.decryptionContexts rid).processed = false ∧ pr.1 = processedState s rid := by
  by_cases hp : (s.decryptionContexts rid).processed = true
  · rw [myCallback, if_pos hp] at h; cases h
  · by_cases hsm : B32.keccakEnc (buildCts s (s.decryptionContexts rid).batchId
        (s.submissionsCount (s.decryptionContexts rid).batchId)) s.selfAddr
        = (s.decryptionContexts rid).stateHash
    · by_cases hcs : cs rid c p = true
      · cases hd : decodeSubmissions c
            (s.submissionsCount ((s.decryptionContexts rid).batchId)) 0 with
        | none =>
          rw [myCallback, if_neg hp] at h
          simp only [hsm, hcs, hd, ne_eq, not_true_eq_false, if_false,
            Bool.not_eq_true, ite_false, ite_true] at h
          cases h
        | some rf =>
          obtain ⟨reps, flags⟩ := rf
          have hval : myCallback cs s rid c p
              = .ok (processedState s rid, reps, flags) := by
            rw [myCallback, if_neg hp]
            simp only [hsm, hcs, hd, ne_eq, not_true_eq_false, if_false,
              Bool.not_eq_true, ite_false, ite_true]
            rfl
          rw [hval] at h
          cases h
          exact ⟨Bool.not_eq_true _ ▸ hp, rfl⟩
      · rw [myCallback, if_neg hp] at h
        simp only [hsm, hcs, ne_eq, not_true_eq_false, if_false,
          Bool.not_eq_true, ite_false, ite_true] at h
        cases h
    · rw [myCallback, if_neg hp] at h
      simp only [ne_eq, hsm, not_false_eq_true, if_true, ite_true] at h
      cases h

/-- Inversion of a successful `requestBatchDecryption`: all guards held and
the result is exactly `requestedState`. -/
theorem requestBatchDecryption_ok_inv (s : ContractState)
    (sender now _batchId requestId : Nat) (s' : ContractState)
    (h : requestBatchDecryption s sender now _batchId requestId = .ok s') :
    sender = s.owner ∧ s.paused = false
    ∧ s.lastSubmissionTime sender + s.cooldownSeconds ≤ now
    ∧ s.submissionsCount _batchId ≠ 0
    ∧ s' = requestedState s sender now _batchId requestId := by
  unfold requestBatchDecryption at h
  split at h
  · cases h
  · next h1 =>
    split at h
    · cases h
    · next h2 =>
      split at h
      · cases h
      · next h3 =>
        split at h
        · cases h
        · next h4 =>
          cases h
          exact ⟨not_not.mp h1, Bool.not_eq_true _ ▸ h2, Nat.not_lt.mp h3, h4, rfl⟩

/-- Inversion of a successful `submitReputationUpdate`: every guard held and
the result is exactly `submittedState`. -/
theorem submitReputationUpdate_ok_inv (s : ContractState)
    (sender now _batchId d f : Nat) (s' : ContractState)
    (h : submitReputationUpdate s sender now _batchId d f = .ok s') :
    s.isProvider sender = true ∧ s.paused = false
    ∧ s.lastSubmissionTime sender + s.cooldownSeconds ≤ now
    ∧ isValidBatch s _batchId = true
    ∧ s' = submittedState s sender now _batchId d f := by
  unfold submitReputationUpdate at h
  split at h
  · cases h
  · next h1 =>
    split at h
    · cases h
    · next h2 =>
      split at h
      · cases h
      · next h3 =>
        split at h
        · cases h
        · next h4 =>
          cases h
          exact ⟨Bool.of_not_eq_false (by simpa using h1), Bool.not_eq_true _ ▸ h2,
            Nat.not_lt.mp h3, Bool.of_not_eq_false (by simpa using h4), rfl⟩

/-- Forward direction: when every guard of `submitReputationUpdate` holds,
the call succeeds and commits `submittedState`. -/
theorem submitReputationUpdate_ok_of (s : ContractState)
    (sender now _batchId d f : Nat)
    (hprov : s.isProvider sender = true) (hpause : s.paused = false)
    (hcool : s.lastSubmissionTime sender + s.cooldownSeconds ≤ now)
    (hvalid : isValidBatch s _batchId = true) :
    submitReputationUpdate s sender now _batchId d f
      = .ok (submittedState s sender now _batchId d f) := by
  unfold submitReputationUpdate
  rw [if_neg (by simp [hprov]), if_neg (by simp [hpause]),
    if_neg (Nat.not_lt.mpr hcool), if_neg (by simp [hvalid])]
  rfl

/-- C1: after a callback for request id `r` completes successfully (marking
its context processed), every later callback invocation with the same `r` —
after any interleaved operations, none of which stores a fresh context under
`r` (the spec's global-uniqueness assumption on oracle request ids) — fails
with `ReplayDetected` and leaves the state unchanged. -/
theorem C1_callback_at_most_once
    (cs : Nat → List Nat → List Nat → Bool) (s : ContractState) (r : Nat)
    (c p : List Nat) (pr : ContractState × List Nat × List Bool)
    (hok : myCallback cs s r c p = .ok pr)
    (ops : List Op) (hops : ∀ o ∈ ops, opStoresContextAt o r = false)
    (cs' : Nat → List Nat → List Nat → Bool) (c' p' : List Nat) :
    myCallback cs' (execTrace ops pr.1) r c' p' = .error .ReplayDetected
    ∧ stepOp (Op.myCallback cs' r c' p') (execTrace ops pr.1) = execTrace ops pr.1 := by
  obtain ⟨-, hps⟩ := myCallback_ok_inv cs s r c p pr hok
  have hproc : (pr.1.decryptionContexts r).processed = true := by
    rw [hps]; simp [processedState, upd]
  have hproc2 : ((execTrace ops pr.1).decryptionContexts r).processed = true :=
    execTrace_processed_mono ops pr.1 r hops hproc
  have hfail := myCallback_replay cs' (execTrace ops pr.1) r c' p' hproc2
  refine ⟨hfail, ?_⟩
  unfold stepOp
  simp only [runOp]
  rw [hfail]
  rfl

/-- C1 witness: in the concrete scenario, the successful callback for
request 7 makes an immediate replay fail with `ReplayDetected` without
touching the state. -/
theorem C1_witness :
    myCallback acceptAll (execTrace [] sA4) 7 cA [] = .error .ReplayDetected
    ∧ stepOp (Op.myCallback acceptAll 7 cA []) (execTrace [] sA4) = execTrace [] sA4 :=
  C1_callback_at_most_once acceptAll sA3 7 cA [] (sA4, [0], [false]) rfl []
    (fun o ho => absurd ho (List.not_mem_nil o)) acceptAll cA []

/-- C2: if a decryption request for batch `b` succeeds and, before its
callback runs, at least one submission to `b` is accepted (the trace around
it may hold arbitrary other operations, none touching the request's context
slot — fresh oracle ids, and the matching callback not yet delivered), then
the callback fails with `StateMismatch` and the context stays unprocessed. -/
theorem C2_tamper_detected
    (s : ContractState) (sender now b rid : Nat) (s1 : ContractState)
    (hreq : requestBatchDecryption s sender now b rid = .ok s1)
    (l1 l2 : List Op) (sd nw d f : Nat) (s' : ContractState)
    (hsub : submitReputationUpdate (execTrace l1 s1) sd nw b d f = .ok s')
    (hno : ∀ o ∈ l1 ++ Op.submitReputationUpdate sd nw b d f :: l2,
      opTouchesRequest o rid = false)
    (cs : Nat → List Nat → List Nat → Bool) (c p : List Nat) :
    myCallback cs (execTrace (l1 ++ Op.submitReputationUpdate sd nw b d f :: l2) s1) rid c p
      = .error .StateMismatch
    ∧ ((execTrace (l1 ++ Op.submitReputationUpdate sd nw b d f :: l2)
        s1).decryptionContexts rid).processed = false := by
  obtain ⟨-, -, -, hn0, hs1⟩ := requestBatchDecryption_ok_inv s sender now b rid s1 hreq
  have hctx1 : s1.decryptionContexts rid
      = ⟨b, B32.keccakEnc (buildCts s b (s.submissionsCount b)) s.selfAddr, false⟩ := by
    rw [hs1]; simp [requestedState, upd]
  have hcount1 : s1.submissionsCount b = s.submissionsCount b := by rw [hs1]; rfl
  have hctx2 : (execTrace (l1 ++ Op.submitReputationUpdate sd nw b d f :: l2)
        s1).decryptionContexts rid
      = ⟨b, B32.keccakEnc (buildCts s b (s.submissionsCount b)) s.selfAddr, false⟩ := by
    rw [execTrace_ctx_preserved _ s1 rid hno, hctx1]
  have hmid : s.submissionsCount b ≤ (execTrace l1 s1).submissionsCount b := by
    rw [← hcount1]; exact execTrace_count_mono l1 s1 b
  obtain ⟨-, -, -, -, hs'⟩ := submitReputationUpdate_ok_inv _ sd nw b d f s' hsub
  have hstep : stepOp (Op.submitReputationUpdate sd nw b d f) (execTrace l1 s1) = s' := by
    unfold stepOp; simp only [runOp]; rw [hsub]
  have hcount' : s'.submissionsCount b = (execTrace l1 s1).submissionsCount b + 1 := by
    rw [hs']; simp [submittedState, upd]
  have hsplit : execTrace (l1 ++ Op.submitReputationUpdate sd nw b d f :: l2) s1
      = execTrace l2 s' := by
    rw [execTrace_append]
    simp only [execTrace]
    rw [hstep]
  have hcount2 : s.submissionsCount b + 1
      ≤ (execTrace (l1 ++ Op.submitReputationUpdate sd nw b d f :: l2)
          s1).submissionsCount b := by
    rw [hsplit]
    calc s.submissionsCount b + 1
        ≤ (execTrace l1 s1).submissionsCount b + 1 := Nat.succ_le_succ hmid
      _ = s'.submissionsCount b := hcount'.symm
      _ ≤ (execTrace l2 s').submissionsCount b := execTrace_count_mono l2 s' b
  refine ⟨?_, by rw [hctx2]⟩
  have hne : B32.keccakEnc
      (buildCts (execTrace (l1 ++ Op.submitReputationUpdate sd nw b d f :: l2) s1) b
        ((execTrace (l1 ++ Op.submitReputationUpdate sd nw b d f :: l2)
          s1).submissionsCount b))
      (execTrace (l1 ++ Op.submitReputationUpdate sd nw b d f :: l2) s1).selfAddr
      ≠ B32.keccakEnc (buildCts s b (s.submissionsCount b)) s.selfAddr := by
    intro hEq
    injection hEq with h1 h2
    have hlen := congrArg List.length h1
    simp only [buildCts, List.length_append, List.length_map, List.length_range] at hlen
    omega
  rw [myCallback, if_neg (by rw [hctx2]; simp)]
  rw [hctx2]
  exact if_pos hne

/-- C2 witness: a submission accepted between request 7 and its callback
makes the callback fail with `StateMismatch`, context still unprocessed. -/
theorem C2_witness :
    myCallback acceptAll
      (execTrace ([] ++ Op.submitReputationUpdate 1 300 1 66 0 :: []) sA3) 7 cA []
      = .error .StateMismatch
    ∧ ((execTrace ([] ++ Op.submitReputationUpdate 1 300 1 66 0 :: [])
        sA3).decryptionContexts 7).processed = false :=
  C2_tamper_detected sA2 1 200 1 7 sA3 rfl [] [] 1 300 66 0 sA3b rfl
    (by intro o ho; simp only [List.nil_append, List.mem_singleton] at ho; subst ho; rfl)
    acceptAll cA []

/-- C3 counterexample: calling the callback with request id 5 on a fresh
deployment — no context was ever stored for any id — fails with
`StateMismatch`, not `ReplayDetected` as the claim states: the code only
checks `processed`, which is `false` for the missing (zero-default) context,
and then the recomputed digest cannot match the zero `stateHash`. -/
theorem C3_counterexample :
    myCallback acceptAll (initState 1 100) 5 [] [] = .error .StateMismatch
    ∧ Err.StateMismatch ≠ Err.ReplayDetected :=
  ⟨rfl, by decide⟩

/-- C3 amended: a callback on a request id whose context slot still holds
the zero default (no `requestBatchDecryption` ever stored that id) fails —
but with `StateMismatch`: the zero stored digest never equals a recomputed
keccak digest. -/
theorem C3_missing_context_mismatch (cs : Nat → List Nat → List Nat → Bool)
    (s : ContractState) (r : Nat) (c p : List Nat)
    (h : s.decryptionContexts r = ⟨0, B32.zero, false⟩) :
    myCallback cs s r c p = .error .StateMismatch := by
  rw [myCallback, if_neg (by rw [h]; simp)]
  rw [h]
  exact if_pos (by simp)

/-- C3 amended witness: concrete fresh deployment, request id 5. -/
theorem C3_witness :
    myCallback acceptAll (initState 1 100) 5 [] [] = .error .StateMismatch :=
  C3_missing_context_mismatch acceptAll (initState 1 100) 5 [] [] rfl

/-- C4: the code's single `respectCooldown` modifier reads
`lastSubmissionTime` on BOTH entry points. A successful submission at
`t = 1000` (which leaves `lastDecryptionRequestTime[1]` at 0) makes a
decryption request at `t = 1030` fail with `CooldownActive`, even though
the caller's decryption-request cooldown window (`0 + 60 ≤ 1030`) is long
since satisfied — cross-class interference the claim rules out. -/
theorem C4_cooldown_not_independent :
    submitReputationUpdate sB1 1 1000 1 5 0 = .ok sB2
    ∧ sB2.lastDecryptionRequestTime 1 + sB2.cooldownSeconds ≤ 1030
    ∧ requestBatchDecryption sB2 1 1030 1 7 = .error .CooldownActive :=
  ⟨rfl, by decide, rfl⟩

/-- C5: the decode loop contradicts its own running-offset design. (a) The
buffer `[0,0,0,7,1]` — exactly the "expected total" the code's comments
describe for one submission (a 4-byte delta `7` then a 1-byte flag `1`) —
makes the callback revert in decode (`abi.decode` demands 32-byte words),
instead of decoding delta 7 / flag true. (b) A 36-byte buffer, which does
NOT match that expected total, is accepted (delta 0, flag false): no length
check rejects it. -/
theorem C5_decode_bug :
    myCallback acceptAll sA3 7 [0, 0, 0, 7, 1] [] = .error .DecodeRevert
    ∧ myCallback acceptAll sA3 7 cA [] = .ok (sA4, [0], [false]) :=
  ⟨rfl, rfl⟩

/-- C6: a `submitReputationUpdate` that fails any guard leaves the state —
in particular the caller's `lastSubmissionTime` — exactly unchanged, while
a successful call implies every guard held and sets the caller's
`lastSubmissionTime` to the call's timestamp. -/
theorem C6_submit_failure_frame (s : ContractState) (sender now b d f : Nat) :
    (∀ e, submitReputationUpdate s sender now b d f = .error e →
      stepOp (Op.submitReputationUpdate sender now b d f) s = s)
    ∧ (∀ s', submitReputationUpdate s sender now b d f = .ok s' →
        s.isProvider sender = true ∧ s.paused = false
        ∧ s.lastSubmissionTime sender + s.cooldownSeconds ≤ now
        ∧ isValidBatch s b = true
        ∧ s'.lastSubmissionTime sender = now) := by
  constructor
  · intro e he
    unfold stepOp
    simp only [runOp]
    rw [he]
  · intro s' hok
    obtain ⟨h1, h2, h3, h4, h5⟩ := submitReputationUpdate_ok_inv s sender now b d f s' hok
    exact ⟨h1, h2, h3, h4, by rw [h5]; simp [submittedState, upd]⟩

/-- C6 witness: a non-provider's rejected submission changes nothing; the
owner's accepted submission at `t = 100` records exactly that timestamp. -/
theorem C6_witness :
    stepOp (Op.submitReputationUpdate 2 1000 1 0 0) sA1 = sA1
    ∧ sA2.lastSubmissionTime 1 = 100 :=
  ⟨(C6_submit_failure_frame sA1 2 1000 1 0 0).1 .NotProvider rfl,
   ((C6_submit_failure_frame sA1 1 100 1 55 1).2 sA2 rfl).2.2.2.2⟩

/-- C7 counterexample: `pause()` on a paused contract and `unpause()` on an
unpaused contract revert with the SAME `Paused` error (the contract's error
set has no `AlreadyPaused` / `AlreadyUnpaused` at all), so the two failure
directions are not reported with different errors as the claim states. -/
theorem C7_counterexample :
    pause sP 1 = .error .Paused ∧ unpause sA0 1 = .error .Paused
    ∧ pause sP 1 = unpause sA0 1 :=
  ⟨rfl, rfl, rfl⟩

/-- C7 amended: for the owner, `pause()` when already paused and `unpause()`
when not paused both fail, each with the single shared error `Paused`. -/
theorem C7_pause_errors (s : ContractState) (sender : Nat) (hown : sender = s.owner) :
    (s.paused = true → pause s sender = .error .Paused)
    ∧ (s.paused = false → unpause s sender = .error .Paused) := by
  constructor
  · intro hp
    unfold pause
    rw [if_neg (by simp [hown]), if_pos hp]
  · intro hp
    unfold unpause
    rw [if_neg (by simp [hown]), if_pos (by simp [hp])]

/-- C7 amended witness: both directions on concrete states. -/
theorem C7_witness :
    pause sP 1 = .error .Paused ∧ unpause (initState 1 100) 1 = .error .Paused :=
  ⟨(C7_pause_errors sP 1 rfl).1 rfl, (C7_pause_errors (initState 1 100) 1 rfl).2 rfl⟩

/-- C8 counterexample: the state reached from deployment by the single call
`removeProvider(owner)` is reachable, yet `isProvider[owner]` is false there
— the claimed invariant is not preserved by `removeProvider`. -/
theorem C8_counterexample :
    Reachable sR ∧ sR.isProvider sR.owner = false :=
  ⟨Reachable.step (Op.removeProvider 1 1) (Reachable.init 1 100), by decide⟩

/-- C8 amended: the constructor does make the owner a provider, and
`removeProvider` never changes ownership; but `isProvider[owner]` is not an
invariant: the owner removing their own provider flag succeeds and clears
it, ownership intact. -/
theorem C8_owner_provider_not_invariant (deployer selfAddr : Nat)
    (s s' : ContractState) (h : removeProvider s s.owner s.owner = .ok s') :
    (initState deployer selfAddr).isProvider (initState deployer selfAddr).owner = true
    ∧ s'.owner = s.owner
    ∧ (s.isProvider s.owner = true → s'.isProvider s'.owner = false) := by
  refine ⟨by simp [initState], ?_, ?_⟩
  · unfold removeProvider at h
    rw [if_neg (by simp)] at h
    split at h
    · cases h; rfl
    · cases h; rfl
  · intro hp
    unfold removeProvider at h
    rw [if_neg (by simp), if_pos hp] at h
    cases h
    simp [upd]

/-- C8 amended witness: deployment then `removeProvider(owner)`. -/
theorem C8_witness :
    (initState 1 100).isProvider (initState 1 100).owner = true
    ∧ sR.owner = (initState 1 100).owner
    ∧ ((initState 1 100).isProvider (initState 1 100).owner = true
        → sR.isProvider sR.owner = false) :=
  C8_owner_provider_not_invariant 1 100 (initState 1 100) sR rfl

/-- C9: `transferOwnership` has no guard on the new identity: any call by
the current owner succeeds and reassigns `owner` to the given value — the
zero identity included. -/
theorem C9_transferOwnership_unguarded (s : ContractState) (sender newOwner : Nat)
    (h : sender = s.owner) :
    transferOwnership s sender newOwner = .ok { s with owner := newOwner } := by
  unfold transferOwnership
  rw [if_neg (by simp [h])]

/-- C9 witness: the owner transfers ownership to the zero identity. -/
theorem C9_witness :
    transferOwnership sA0 1 0 = .ok { sA0 with owner := 0 } :=
  C9_transferOwnership_unguarded sA0 1 0 rfl

/-- C10: `submitReputationUpdate` accepts any batch `b` with
`1 ≤ b ≤ currentBatchId` whose open flag is set — not only the newest — and
`openBatch` leaves every previously allocated batch's open flag unchanged,
so several batches can be open and accept submissions simultaneously. -/
theorem C10_any_open_batch (s : ContractState) (sender now b d f : Nat)
    (hprov : s.isProvider sender = true) (hpause : s.paused = false)
    (hcool : s.lastSubmissionTime sender + s.cooldownSeconds ≤ now)
    (hb1 : 1 ≤ b) (hb2 : b ≤ s.currentBatchId) (hopen : s.isBatchOpen b = true) :
    submitReputationUpdate s sender now b d f
      = .ok (submittedState s sender now b d f)
    ∧ (∀ sender' s', openBatch s sender' = .ok s' →
        ∀ b', b' ≤ s.currentBatchId → s'.isBatchOpen b' = s.isBatchOpen b') := by
  constructor
  · exact submitReputationUpdate_ok_of s sender now b d f hprov hpause hcool
      (by simp [isValidBatch, hopen]; omega)
  · intro sender' s' h b' hb'
    unfold openBatch at h
    split at h
    · cases h
    · split at h
      · cases h
      · cases h
        simp only [upd]
        rw [if_neg (by omega)]

/-- C10 witness: with batches 1 and 2 both open, a provider's submission to
the older batch 1 is accepted, and the second `openBatch` left batch 1's
open flag intact. -/
theorem C10_witness :
    submitReputationUpdate sT 1 100 1 9 1 = .ok (submittedState sT 1 100 1 9 1)
    ∧ (∀ sender' s', openBatch sT sender' = .ok s' →
        ∀ b', b' ≤ sT.currentBatchId → s'.isBatchOpen b' = sT.isBatchOpen b') :=
  C10_any_open_batch sT 1 100 1 9 1 (by decide) rfl (by decide)
    (by decide) (by decide) (by decide)
